import Mathlib

/-!
Shallow embedding of the CleanCrush core (scanner, config protection lookup,
archive store, archive lifecycle, directory sizing), translated from
`src/scanner.rs`, `src/config.rs`, `src/archive.rs` and `src/lib.rs`.

Modelling conventions:
* Paths are lists of components (`List String`), matching `std::path::Path`
  semantics for `starts_with` (component-wise), `file_name` (last component),
  `file_stem` / `extension` (split of the last component at its final dot).
* File contents are byte lists (`List Nat`).  The content digest (blake3 in the
  source) is used by the program only as an equality-grouping key, so it is
  modelled as the content itself, a collision-free abstraction.
* Rust `f32` arithmetic on confidence scores is modelled with exact rationals.
* The embedding models a quiescent, single-threaded filesystem (the program is
  entirely synchronous, spec section 5): candidates collected by the walk still
  exist when analysed, and reading a candidate's bytes succeeds.  OS effects
  that the code consults (file locks, rename/trash success) are modelled as
  boolean fields or oracle functions supplied as parameters.
* `HashMap` grouping in `detect_duplicates` is modelled by its final contents
  (which paths map to which digest, and which paths form a digest group, in
  candidate-list order); the map's iteration order is immaterial to every fact
  proved here.
-/

/-! ### Characters and substring search (`str::contains` on lowercased text) -/

/-- `subChars pat s`: is `pat` a contiguous substring of `s`
(the model of Rust `str::contains`)? -/
def subChars (pat : List Char) : List Char → Bool
  | [] => pat.isEmpty
  | c :: rest => pat.isPrefixOf (c :: rest) || subChars pat rest

/-- ASCII lowercasing of a character list (`str::to_lowercase`). -/
def lowerChars (s : List Char) : List Char := s.map Char.toLower

/-- `filename.to_lowercase().contains(pat)` for a literal pattern `pat`. -/
def strHas (s pat : String) : Bool := subChars pat.toList (lowerChars s.toList)

/-! ### Path model -/

/-- A filesystem path as its list of components. -/
abbrev FPath := List String

/-- `Path::file_name`, with `unwrap_or_default`: the last component, `""` for
an empty path. -/
def fileName (p : FPath) : String := p.getLast?.getD ""

/-- `Path::extension` on a file name: the part after the final dot, `none`
when there is no dot or the only dot is leading (hidden files). -/
def extOfChars (name : List Char) : Option (List Char) :=
  match name.splitOn '.' with
  | [] => none
  | [_] => none
  | [[], _] => none
  | parts => parts.getLast?

/-- `Path::file_stem` on a file name: the part before the final dot (the whole
name when `extOfChars` is `none`). -/
def stemOfChars (name : List Char) : List Char :=
  match name.splitOn '.' with
  | [] => name
  | [_] => name
  | [[], _] => name
  | parts => List.intercalate ['.'] parts.dropLast

/-- `path.extension().and_then(to_str).unwrap_or("").to_lowercase()`. -/
def extLc (p : FPath) : List Char :=
  lowerChars ((extOfChars (fileName p).toList).getD [])

/-- `path.to_string_lossy()`: the path joined by separators, as characters. -/
def pathChars (p : FPath) : List Char := List.intercalate ['/'] (p.map String.toList)

/-! ### Constants from `src/lib.rs` / `src/scanner.rs` -/

def DEFAULT_OLD_DAYS : Nat := 60

def STUDY_PATTERNS : List String :=
  ["lecture", "notes", "assignment", "homework", "lab",
   "exam", "quiz", "week", "chapter", "slide", "tutorial",
   "worksheet", "solution", "practice", "review"]

def DUPLICATE_PATTERNS : List String :=
  ["copy", "(1)", "(2)", "_copy", "-copy",
   "final_final", "old", "backup", "version"]

def CLOUD_FOLDERS : List String :=
  ["Google Drive", "Dropbox", "OneDrive", "iCloud Drive", "Box", "Sync"]

def SCAN_COURSE_PATTERNS : List (String × List String) :=
  [("math", ["math", "calculus", "algebra", "geometry"]),
   ("cs", ["cs", "computer science", "programming", "data structures"]),
   ("physics", ["physics", "mechanics", "quantum"]),
   ("chemistry", ["chemistry", "organic", "inorganic"]),
   ("biology", ["biology", "genetics", "ecology"]),
   ("history", ["history", "world history", "us history"]),
   ("literature", ["literature", "english", "novel"])]

/-- `FileCategory` from `src/lib.rs`. -/
inductive FileCategory where
  | Lecture | Assignment | Reference | Other | Duplicate | Old | Large
deriving DecidableEq, Repr

/-! ### Scan candidates and duplicate detection (`Scanner::detect_duplicates`) -/

/-- One tuple collected by `Scanner::collect_candidates`:
`(PathBuf, size, modified, created)`.  The modified/created timestamps enter
the analysis only through `days_old = (now - modified).num_days()`, so the
candidate carries that derived age directly (the current time is injected).
`content` is the byte content the hashing pass would stream. -/
structure Candidate where
  path : FPath
  size : Nat
  content : List Nat
  daysOld : Int
deriving DecidableEq, Repr

/-- A content digest; blake3 serves purely as an equality-grouping key, so the
digest is modelled as the content itself. -/
abbrev Digest := List Nat

def digest (content : List Nat) : Digest := content

/-- The final contents of the size map built by the first pass of
`detect_duplicates`: the paths of all candidates with byte size `s`, in
candidate order. -/
def sizeGroup (cands : List Candidate) (s : Nat) : List FPath :=
  (cands.filter (fun c => decide (c.size = s))).map (·.path)

/-- The second pass of `detect_duplicates` hashes exactly the candidates whose
size group has at least two members and whose size is nonzero. -/
def qualifiesForHash (cands : List Candidate) (c : Candidate) : Bool :=
  decide (c.size ≠ 0) && decide (2 ≤ (sizeGroup cands c.size).length)

def hashedCandidates (cands : List Candidate) : List Candidate :=
  cands.filter (qualifiesForHash cands)

/-- The final contents of `hash_cache`: the digest recorded for a path, if
that path was hashed. -/
def hashCache (cands : List Candidate) (p : FPath) : Option Digest :=
  ((hashedCandidates cands).find? (fun c => decide (c.path = p))).map
    (fun c => digest c.content)

/-- The final contents of one `hash_groups` entry: all hashed paths whose
content digests to `d`, in candidate order. -/
def hashGroup (cands : List Candidate) (d : Digest) : List FPath :=
  ((hashedCandidates cands).filter (fun c => decide (digest c.content = d))).map (·.path)

/-- The scan loop's duplicate test: the path was hashed and its digest's group
has more than one member. -/
def isDuplicate (cands : List Candidate) (p : FPath) : Bool :=
  match hashCache cands p with
  | some h => decide (2 ≤ (hashGroup cands h).length)
  | none => false

/-- `calculate_confidence`'s scan over `hash_groups` for the group holding
`p`: its size when it is a real duplicate group, `0` otherwise. -/
def duplicateCount (cands : List Candidate) (p : FPath) : Nat :=
  match hashCache cands p with
  | some h =>
      let g := (hashGroup cands h).length
      if 2 ≤ g then g else 0
  | none => 0

/-! ### Categorisation and confidence scoring (`Scanner`) -/

/-- `Scanner::categorize_file`: filename keyword, then age, then size, then
`Other`. -/
def categorizeFile (path : FPath) (daysOld : Int) (size : Nat)
    (largeThresholdMb : Nat) : FileCategory :=
  let filename := fileName path
  if strHas filename "lecture" || strHas filename "slide" ||
      strHas filename "presentation" then .Lecture
  else if strHas filename "assignment" || strHas filename "homework" ||
      strHas filename "hw" then .Assignment
  else if strHas filename "textbook" || strHas filename "book" ||
      strHas filename "reference" then .Reference
  else if decide ((DEFAULT_OLD_DAYS : Int) < daysOld) then .Old
  else if decide (largeThresholdMb * 1024 * 1024 < size) then .Large
  else .Other

/-- Structured model of the formatted reason strings pushed by
`calculate_confidence`; joining them with " + " is presentation only. -/
inductive Reason where
  | exactDuplicate (copies : Nat)
  | filenameSuggestsDuplicate
  | veryOld (days : Int)
  | old (days : Int)
  | largeFile (sizeMb : ℚ)
  | studyRelated
  | screenshotCap
  | generalStudyFile
deriving DecidableEq, Repr

/-- The image-extension test of the exam-mode cap in `calculate_confidence`. -/
def isImageExt (p : FPath) : Bool :=
  extLc p == "png".toList || extLc p == "jpg".toList || extLc p == "jpeg".toList

/-- Signal 1 of `calculate_confidence`: exact duplicate (group size > 1)
sets confidence 0.99. -/
def scoreDup (cands : List Candidate) (path : FPath) (isDup : Bool) :
    ℚ × List Reason :=
  if isDup && decide (0 < duplicateCount cands path) then
    (0.99, [.exactDuplicate (duplicateCount cands path)])
  else (0, [])

/-- Signal 2: filename contains a duplicate-suggestive token. -/
def scorePat (filename : String) (s : ℚ × List Reason) : ℚ × List Reason :=
  if DUPLICATE_PATTERNS.any (fun pat => strHas filename pat) then
    (max s.1 0.85, s.2 ++ [.filenameSuggestsDuplicate])
  else s

/-- Signal 3: age-based confidence. -/
def scoreAge (daysOld : Int) (daysThreshold : Nat) (s : ℚ × List Reason) :
    ℚ × List Reason :=
  if decide ((90 : Int) < daysOld) then (max s.1 0.95, s.2 ++ [.veryOld daysOld])
  else if decide ((daysThreshold : Int) < daysOld) then
    (max s.1 (0.7 + min ((((daysOld - (daysThreshold : Int)) : Int) : ℚ) / 30) 0.25),
      s.2 ++ [.old daysOld])
  else s

/-- Signal 4: size-based confidence. -/
def scoreSize (size : Nat) (largeThresholdMb : Nat) (s : ℚ × List Reason) :
    ℚ × List Reason :=
  let sizeMb : ℚ := (size : ℚ) / (1024 * 1024)
  if decide (largeThresholdMb * 1024 * 1024 < size) then
    (max s.1 (0.7 + min (sizeMb / 1000) 0.25), s.2 ++ [.largeFile sizeMb])
  else s

/-- Signal 5: study-pattern confidence. -/
def scoreStudy (filename : String) (s : ℚ × List Reason) : ℚ × List Reason :=
  if STUDY_PATTERNS.any (fun pat => strHas filename pat) then
    (max s.1 0.75, s.2 ++ [.studyRelated])
  else s

/-- Signal 6: category-based floor. -/
def scoreCategory (category : FileCategory) (s : ℚ × List Reason) :
    ℚ × List Reason :=
  match category with
  | .Lecture | .Assignment | .Reference => (max s.1 0.65, s.2)
  | .Old => (max s.1 0.85, s.2)
  | .Large => (max s.1 0.75, s.2)
  | .Other => (max s.1 0.4, s.2)
  | .Duplicate => s

/-- Signal 7: exam-mode cap for image extensions. -/
def scoreExamCap (isExamMode : Bool) (path : FPath) (s : ℚ × List Reason) :
    ℚ × List Reason :=
  if isExamMode && isImageExt path then (min s.1 0.4, s.2 ++ [.screenshotCap])
  else s

/-- `Scanner::calculate_confidence`, with `f32` modelled by exact rationals:
the sequential mutations of the `confidence` variable and the `reasons`
vector appear as the composition of the signal steps above, followed by the
0.1 floor and the 1.0 clamp.  The source receives the `hash_groups` map; here
the candidate list from which that map is built is passed instead. -/
def calculateConfidence (isExamMode : Bool) (cands : List Candidate)
    (path : FPath) (daysOld : Int) (size : Nat) (daysThreshold : Nat)
    (largeThresholdMb : Nat) (category : FileCategory) (isDup : Bool) :
    ℚ × List Reason :=
  let filename := fileName path
  let s :=
    scoreExamCap isExamMode path
      (scoreCategory category
        (scoreStudy filename
          (scoreSize size largeThresholdMb
            (scoreAge daysOld daysThreshold
              (scorePat filename (scoreDup cands path isDup))))))
  (min (max s.1 0.1) 1, if s.2.isEmpty then [.generalStudyFile] else s.2)

/-- `Scanner::detect_course` (regexes compiled from literal alternations, so
matching is substring search on the lowercased filename). -/
def detectCourseScan (path : FPath) : String :=
  match SCAN_COURSE_PATTERNS.find?
      (fun cp => cp.2.any (fun pat => strHas (fileName path) pat)) with
  | some cp => cp.1
  | none => "general"

/-- `Scanner::get_file_type`. -/
def getFileType (p : FPath) : List Char :=
  match extOfChars (fileName p).toList with
  | some e => lowerChars e
  | none => "unknown".toList

/-- `Scanner::is_in_cloud_folder`. -/
def isInCloudFolder (p : FPath) : Bool :=
  CLOUD_FOLDERS.any (fun f => subChars (lowerChars f.toList) (lowerChars (pathChars p)))

/-- `FileInfo` from `src/scanner.rs` (timestamps carried as `daysOld`). -/
structure FileInfo where
  path : FPath
  sizeBytes : Nat
  daysOld : Int
  course : String
  fileType : List Char
  hash : Option Digest
  confidence : ℚ
  reason : List Reason
  category : FileCategory
  isInCloud : Bool
  isLocked : Bool
deriving DecidableEq, Repr

/-- The body of the per-candidate analysis loop in `Scanner::scan`, building
one `FileInfo`.  `lockOf` is the OS lock probe (`is_file_locked`). -/
def mkFileInfo (cands : List Candidate) (isExamMode : Bool)
    (daysThreshold largeThresholdMb : Nat) (lockOf : FPath → Bool)
    (c : Candidate) : FileInfo :=
  let isDup := isDuplicate cands c.path
  let category :=
    if isDup then FileCategory.Duplicate
    else categorizeFile c.path c.daysOld c.size largeThresholdMb
  let cr := calculateConfidence isExamMode cands c.path c.daysOld c.size
    daysThreshold largeThresholdMb category isDup
  { path := c.path
    sizeBytes := c.size
    daysOld := c.daysOld
    course := detectCourseScan c.path
    fileType := getFileType c.path
    hash := hashCache cands c.path
    confidence := cr.1
    reason := cr.2
    category := category
    isInCloud := isInCloudFolder c.path
    isLocked := lockOf c.path }

/-- The analysis loop of `Scanner::scan` over the collected candidates, in
traversal order, dropping records below confidence 0.4 unless in exam mode
(the aggregate counters of `ScanResult` are not modelled; no claim mentions
them). -/
def scanRecords (cands : List Candidate) (isExamMode : Bool)
    (daysThreshold largeThresholdMb : Nat) (lockOf : FPath → Bool) :
    List FileInfo :=
  cands.filterMap (fun c =>
    let r := mkFileInfo cands isExamMode daysThreshold largeThresholdMb lockOf c
    if !isExamMode && decide (r.confidence < 0.4) then none else some r)

/-- The comparator of the final `files.sort_by`: `a` may precede `b` when
`b.confidence ≤ a.confidence` (descending). -/
def confGe (a b : FileInfo) : Bool := decide (b.confidence ≤ a.confidence)

/-- The `files` field of the `ScanResult` returned by `Scanner::scan`:
the analysed records, stably sorted by confidence descending (Rust
`slice::sort_by` is a stable sort, modelled by `List.mergeSort`). -/
def scanFiles (cands : List Candidate) (isExamMode : Bool)
    (daysThreshold largeThresholdMb : Nat) (lockOf : FPath → Bool) :
    List FileInfo :=
  (scanRecords cands isExamMode daysThreshold largeThresholdMb lockOf).mergeSort confGe

/-! ### Config protection lookup (`Config::is_protected`, `src/config.rs`) -/

inductive ProtectionType where
  | Hard | Soft
deriving DecidableEq, Repr

structure ProtectedFolder where
  path : FPath
  protectionType : ProtectionType
deriving DecidableEq, Repr

/-- `Config::is_protected`: walk `protected_folders` in configuration order and
return the first entry whose path is a component-wise prefix of `path`
(`Path::starts_with`). -/
def isProtected (folders : List ProtectedFolder) (path : FPath) :
    Option ProtectedFolder :=
  folders.find? (fun pf => pf.path.isPrefixOf path)

/-! ### Archive store (`ArchiveSystem::clean_to_archive` /
`clean_to_recycle_bin`, `src/archive.rs`) -/

def ARCHIVE_COURSE_PATTERNS : List (String × List String) :=
  [("cs", ["cs", "computer", "programming", "algorithm", "software"]),
   ("math", ["math", "calculus", "algebra", "statistics", "geometry"]),
   ("science", ["physics", "chemistry", "biology", "science", "lab"]),
   ("engineering", ["engineer", "mechanical", "electrical", "civil", "robotics"]),
   ("business", ["business", "management", "finance", "economics", "marketing"]),
   ("humanities", ["history", "literature", "philosophy", "art", "psychology"])]

/-- `ArchiveSystem::detect_course`. -/
def detectCourseArchive (path : FPath) : String :=
  match ARCHIVE_COURSE_PATTERNS.find?
      (fun cp => cp.2.any (fun pat => strHas (fileName path) pat)) with
  | some cp => cp.1
  | none => "general"

/-- One input file of a cleanup batch, together with the outcomes of the OS
probes and OS operations the per-file code performs on it: `present` is
`file.exists()`, `locked` is the `is_file_locked` read-write-open probe,
`lockedStill` is the same probe after the 10-second retry wait, `metaOk` is
whether `fs::metadata` succeeds, `moveOk` is whether the move
(`fs::rename` / `trash::delete`) succeeds. -/
structure ArchFile where
  path : FPath
  present : Bool
  locked : Bool
  lockedStill : Bool
  metaOk : Bool
  moveOk : Bool
  size : Nat
deriving DecidableEq, Repr

/-- The three decision-oracle shapes (interactive prompts abstracted as
caller-supplied synchronous functions). -/
inductive LockedChoice where
  | skip | retry | cancel
deriving DecidableEq, Repr

inductive CloudChoice where
  | skip | deleteAnyway | cancel
deriving DecidableEq, Repr

structure DecisionOracle where
  lockedChoice : FPath → LockedChoice
  cloudChoice : FPath → CloudChoice
  softProtectedChoice : FPath → Bool

/-- A record of one decision-oracle invocation (one interactive prompt). -/
inductive OracleCall where
  | lockedPrompt (p : FPath)
  | cloudPrompt (p : FPath)
  | protectedPrompt (p : FPath)
deriving DecidableEq, Repr

/-- `ArchiveSystem::handle_locked_file`: prompt skip / retry-after-10s /
cancel-all; retry re-probes the lock. -/
def handleLockedFile (oracle : DecisionOracle) (f : ArchFile) :
    List OracleCall × Except String Bool :=
  ([.lockedPrompt f.path],
    match oracle.lockedChoice f.path with
    | .skip => .ok false
    | .retry => .ok (if f.lockedStill then false else true)
    | .cancel => .error "Operation cancelled by user")

/-- `ArchiveSystem::confirm_cloud_deletion`. -/
def confirmCloudDeletion (oracle : DecisionOracle) (p : FPath) :
    List OracleCall × Except String Bool :=
  ([.cloudPrompt p],
    match oracle.cloudChoice p with
    | .skip => .ok false
    | .deleteAnyway => .ok true
    | .cancel => .error "Operation cancelled by user")

/-- `ArchiveSystem::confirm_protected_deletion`: Hard protection refuses with
no interactive prompt; Soft protection asks the oracle. -/
def confirmProtectedDeletion (oracle : DecisionOracle) (pf : ProtectedFolder)
    (p : FPath) : List OracleCall × Except String Bool :=
  match pf.protectionType with
  | .Hard => ([], .ok false)
  | .Soft => ([.protectedPrompt p], .ok (oracle.softProtectedChoice p))

structure CleanupResult where
  filesProcessed : Nat
  totalSizeBytes : Nat
  successfulFiles : List FPath
  failedFiles : List (FPath × String)
deriving DecidableEq, Repr

def CleanupResult.empty : CleanupResult := ⟨0, 0, [], []⟩

/-- The destination-name collision loop of `clean_to_archive`
(`while dest_path.exists()`), as fuel-based recursion.  `fs` is the set of
paths that currently exist under the archive root.  One fuel unit pays for one
existence test; since the tried names are pairwise distinct, `fs.length + 2`
units always suffice, and the fuel-exhausted `none` outcome is unreachable.
Faithful to the source, `counter > 100` appends a "Too many filename
conflicts" failure but the `continue` restarts the `while` loop (not the
per-file loop), so the search keeps going. -/
def resolveLoop (fs : List FPath) (courseDir : FPath) (stem ext : String) :
    Nat → Nat → String → List String → List String × Option String
  | 0, _, _, fails => (fails, none)
  | fuel + 1, counter, destName, fails =>
    if courseDir ++ [destName] ∈ fs then
      let newName :=
        if ext = "" then stem ++ "_" ++ toString counter
        else stem ++ "_" ++ toString counter ++ "." ++ ext
      let fails' :=
        if 100 < counter + 1 then fails ++ ["Too many filename conflicts"]
        else fails
      resolveLoop fs courseDir stem ext fuel (counter + 1) newName fails'
    else (fails, some destName)

/-- The outcome of handling one file of an archive batch. -/
inductive ArchStepOutcome where
  | skip
  | fail (errs : List String)
  | moved (dest : FPath) (errs : List String)
  | cancelAll (e : String)
deriving DecidableEq, Repr

/-- The body of the per-file loop of `ArchiveSystem::clean_to_archive`:
existence check, locked-file check (the only oracle consultation — there is
no protection or cloud check in this loop), metadata read, collision
resolution, rename.  `errs` carries the per-file failure strings pushed while
handling this file, in push order; `moved` still carries the spurious
conflict failures pushed by the over-100 branch. -/
def archiveStepOutcome (f : ArchFile) (archiveDir : FPath) (fs : List FPath) :
    Except String Bool → ArchStepOutcome
  | .error e => .cancelAll e
  | .ok proceed =>
    if !proceed then .skip
    else if !f.metaOk then .fail ["Cannot read metadata"]
    else
      let courseDir := archiveDir ++ [detectCourseArchive f.path]
      let name := fileName f.path
      let stem := String.mk (stemOfChars name.toList)
      let ext := String.mk ((extOfChars name.toList).getD [])
      let step := resolveLoop fs courseDir stem ext (fs.length + 2) 1 name []
      match step.2 with
      | none => .fail step.1
      | some destName =>
        if f.moveOk then .moved (courseDir ++ [destName]) step.1
        else .fail (step.1 ++ ["rename failed"])

def archiveStep (oracle : DecisionOracle) (archiveDir : FPath) (f : ArchFile)
    (fs : List FPath) : List OracleCall × ArchStepOutcome :=
  if !f.present then ([], .skip)
  else
    let lockStep := if f.locked then handleLockedFile oracle f else ([], .ok true)
    (lockStep.1, archiveStepOutcome f archiveDir fs lockStep.2)

/-- The per-file loop of `ArchiveSystem::clean_to_archive`, threading the
cleanup result, the manifest entries (original path, archived path) and the
set of existing archive paths; returns the trace of oracle prompts and either
the batch outcome or the cancellation error. -/
def cleanToArchiveGo (oracle : DecisionOracle) (archiveDir : FPath) :
    List ArchFile → CleanupResult → List (FPath × FPath) → List FPath →
    List OracleCall × Except String (CleanupResult × List (FPath × FPath))
  | [], res, manifest, _ => ([], .ok (res, manifest))
  | f :: rest, res, manifest, fs =>
    match archiveStep oracle archiveDir f fs with
    | (calls, .cancelAll e) => (calls, .error e)
    | (calls, .skip) =>
      let tail := cleanToArchiveGo oracle archiveDir rest res manifest fs
      (calls ++ tail.1, tail.2)
    | (calls, .fail errs) =>
      let tail := cleanToArchiveGo oracle archiveDir rest
        { res with failedFiles := res.failedFiles ++ errs.map (fun e => (f.path, e)) }
        manifest fs
      (calls ++ tail.1, tail.2)
    | (calls, .moved dest errs) =>
      let tail := cleanToArchiveGo oracle archiveDir rest
        { res with
          filesProcessed := res.filesProcessed + 1
          totalSizeBytes := res.totalSizeBytes + f.size
          successfulFiles := res.successfulFiles ++ [f.path]
          failedFiles := res.failedFiles ++ errs.map (fun e => (f.path, e)) }
        (manifest ++ [(f.path, dest)]) (fs ++ [dest])
      (calls ++ tail.1, tail.2)

/-- `ArchiveSystem::clean_to_archive` over a batch, starting from an empty
result and manifest; `fs` is the content of the archive root before the run
(the day's directory and course sub-directories are created on demand and are
not part of `fs`, which tracks files). -/
def cleanToArchive (oracle : DecisionOracle) (archiveDir : FPath)
    (files : List ArchFile) (fs : List FPath) :
    List OracleCall × Except String (CleanupResult × List (FPath × FPath)) :=
  cleanToArchiveGo oracle archiveDir files .empty [] fs

/-- The per-file loop of `ArchiveSystem::clean_to_recycle_bin`: cloud check
(prompt), lock check (prompt), protection check (Hard skips silently, Soft
prompts), then the trash call. -/
def cleanToRecycleGo (oracle : DecisionOracle) (folders : List ProtectedFolder) :
    List ArchFile → CleanupResult →
    List OracleCall × Except String CleanupResult
  | [], res => ([], .ok res)
  | f :: rest, res =>
    if !f.present then cleanToRecycleGo oracle folders rest res
    else
      let cloudStep : List OracleCall × Except String Bool :=
        if isInCloudFolder f.path then confirmCloudDeletion oracle f.path
        else ([], .ok true)
      match cloudStep with
      | (calls, .error e) => (calls, .error e)
      | (calls, .ok proceedCloud) =>
        if !proceedCloud then
          let tail := cleanToRecycleGo oracle folders rest res
          (calls ++ tail.1, tail.2)
        else
          let lockStep : List OracleCall × Except String Bool :=
            if f.locked then handleLockedFile oracle f else ([], .ok true)
          match lockStep with
          | (calls2, .error e) => (calls ++ calls2, .error e)
          | (calls2, .ok proceedLock) =>
            if !proceedLock then
              let tail := cleanToRecycleGo oracle folders rest res
              (calls ++ calls2 ++ tail.1, tail.2)
            else
              let protStep : List OracleCall × Except String Bool :=
                match isProtected folders f.path with
                | some pf => confirmProtectedDeletion oracle pf f.path
                | none => ([], .ok true)
              match protStep with
              | (calls3, .error e) => (calls ++ calls2 ++ calls3, .error e)
              | (calls3, .ok proceedProt) =>
                let tail :=
                  if !proceedProt then cleanToRecycleGo oracle folders rest res
                  else
                    let size := if f.metaOk then f.size else 0
                    if f.moveOk then
                      cleanToRecycleGo oracle folders rest
                        { res with
                          filesProcessed := res.filesProcessed + 1
                          totalSizeBytes := res.totalSizeBytes + size
                          successfulFiles := res.successfulFiles ++ [f.path] }
                    else
                      cleanToRecycleGo oracle folders rest
                        { res with failedFiles := res.failedFiles ++ [(f.path, "trash failed")] }
                (calls ++ calls2 ++ calls3 ++ tail.1, tail.2)

/-- `ArchiveSystem::clean_to_recycle_bin` over a batch. -/
def cleanToRecycleBin (oracle : DecisionOracle) (folders : List ProtectedFolder)
    (files : List ArchFile) : List OracleCall × Except String CleanupResult :=
  cleanToRecycleGo oracle folders files .empty

/-! ### Archive lifecycle (`ArchiveSystem::check_archive_reminders`,
`list_archives`, `src/archive.rs`) -/

/-- One dated snapshot directory under the archive root.  `date` is the
calendar date parsed from the directory name (in days); `keepForever` is the
presence of the `.keep_forever` marker file; `reminderDate` is the content of
`.reminder_date` (in days), when present. -/
structure Snapshot where
  name : String
  date : Int
  keepForever : Bool
  reminderDate : Option Int
deriving DecidableEq, Repr

/-- The three-way retention decision (clean-now / snooze-7-days /
keep-forever). -/
inductive ReminderChoice where
  | clean | snooze | keep
deriving DecidableEq, Repr

/-- `ArchiveSystem::list_archives`: snapshot directories whose names parse as
dates (the model's snapshots all carry parsed dates), sorted oldest first. -/
def listArchives (snaps : List Snapshot) : List Snapshot :=
  snaps.mergeSort (fun a b => decide (a.date ≤ b.date))

/-- The per-snapshot body of `check_archive_reminders`: triggered purely by
`days_old = now - date ≥ 30` (the source never reads `.keep_forever` or
`.reminder_date` here); the chosen action deletes the snapshot directory,
rewrites `.reminder_date`, or writes `.keep_forever`. -/
def checkRemindersGo (now : Int) (choice : String → ReminderChoice) :
    List Snapshot → List String × List Snapshot
  | [] => ([], [])
  | s :: rest =>
    let tail := checkRemindersGo now choice rest
    if decide (30 ≤ now - s.date) then
      match choice s.name with
      | .clean => (s.name :: tail.1, tail.2)
      | .snooze =>
          (s.name :: tail.1, { s with reminderDate := some (now + 7) } :: tail.2)
      | .keep => (s.name :: tail.1, { s with keepForever := true } :: tail.2)
    else (tail.1, s :: tail.2)

/-- `ArchiveSystem::check_archive_reminders`: returns the reported
(`old_archives`) snapshot names and the archive state after the chosen
actions. -/
def checkArchiveReminders (now : Int) (choice : String → ReminderChoice)
    (snaps : List Snapshot) : List String × List Snapshot :=
  checkRemindersGo now choice (listArchives snaps)

/-! ### Directory sizing (`ArchiveSystem::dir_size`, `src/archive.rs`) -/

/-- A filesystem subtree for `dir_size`: a file carries its length and whether
`fs::metadata` succeeds on it; a directory carries whether `fs::read_dir`
(and its entry iteration) succeeds, plus its children. -/
inductive FsNode where
  | file (size : Nat) (metaOk : Bool)
  | dir (readOk : Bool) (children : List FsNode)

mutual
/-- `ArchiveSystem::dir_size`: on a non-directory returns 0; on a directory,
`fs::read_dir(path)?` and `entry?` propagate unreadable-directory errors,
while a file whose metadata cannot be read contributes 0
(`fs::metadata(...).map(len).unwrap_or(0)`). -/
def dirSize : FsNode → Except String Nat
  | .file _ _ => .ok 0
  | .dir readOk children =>
    if readOk then dirSizeChildren children
    else .error "permission denied"

def dirSizeChildren : List FsNode → Except String Nat
  | [] => .ok 0
  | c :: rest => do
    let s ← match c with
      | .file sz metaOk => pure (if metaOk then sz else 0)
      | .dir r cs => dirSize (.dir r cs)
    let t ← dirSizeChildren rest
    pure (s + t)
end

mutual
/-- Every directory in the subtree is readable. -/
def allDirsReadable : FsNode → Bool
  | .file _ _ => true
  | .dir r cs => r && allDirsReadableChildren cs

def allDirsReadableChildren : List FsNode → Bool
  | [] => true
  | c :: rest => allDirsReadable c && allDirsReadableChildren rest
end

mutual
/-- The recursive sum of contained file lengths, counting 0 for a file whose
metadata is unreadable (and 0 for a top-level non-directory, as in the
source). -/
def goodSize : FsNode → Nat
  | .file _ _ => 0
  | .dir _ cs => goodSizeChildren cs

def goodSizeChildren : List FsNode → Nat
  | [] => 0
  | .file sz metaOk :: rest => (if metaOk then sz else 0) + goodSizeChildren rest
  | .dir r cs :: rest => goodSize (.dir r cs) + goodSizeChildren rest
end

/-! ### Concrete inputs used by witnesses and counterexamples -/

/-- Two zero-length candidates with identical (empty) byte content. -/
def cexEmptyCands : List Candidate :=
  [⟨["a.txt"], 0, [], 0⟩, ⟨["b.txt"], 0, [], 0⟩]

/-- Two nonzero candidates with identical content, plus a bystander. -/
def wDupCands : List Candidate :=
  [⟨["x", "notes.pdf"], 3, [1, 2, 3], 10⟩,
   ⟨["y", "misc.pdf"], 3, [1, 2, 3], 5⟩,
   ⟨["z", "other.txt"], 2, [7, 7], 1⟩]

/-- A candidate list with a unique-size file and a zero-size file. -/
def wSizeCands : List Candidate :=
  [⟨["u.pdf"], 5, [1, 2, 3, 4, 5], 0⟩,
   ⟨["v.pdf"], 2, [8, 9], 0⟩,
   ⟨["w.pdf"], 2, [8, 9], 0⟩,
   ⟨["empty.txt"], 0, [], 0⟩]

/-- A single scan candidate for range witnesses. -/
def wOneCand : Candidate := ⟨["notes.pdf"], 3, [1, 2, 3], 10⟩

/-- A lock probe that reports every file unlocked. -/
def wNoLock : FPath → Bool := fun _ => false

/-- Protection configuration where a shorter prefix precedes a longer one. -/
def cexFolders : List ProtectedFolder :=
  [⟨["a"], .Hard⟩, ⟨["a", "b"], .Soft⟩]

/-! ### General list helpers -/

/-- A list holding two distinct elements has length at least two. -/
theorem two_le_length_of_mem {α : Type} {a b : α} {l : List α}
    (ha : a ∈ l) (hb : b ∈ l) (hab : a ≠ b) : 2 ≤ l.length := by
  cases l with
  | nil => cases ha
  | cons x t =>
    simp only [List.length_cons]
    rcases List.mem_cons.mp ha with rfl | ha'
    · rcases List.mem_cons.mp hb with rfl | hb'
      · exact absurd rfl hab
      · have := List.length_pos_of_mem hb'; omega
    · have := List.length_pos_of_mem ha'; omega

/-- `find?` returns the first satisfying element: everything strictly before
it fails the test. -/
theorem find?_first_index {α : Type} (p : α → Bool) :
    ∀ (l : List α) (a : α), l.find? p = some a →
      ∃ i, ∃ hi : i < l.length, l.get ⟨i, hi⟩ = a ∧
        ∀ j, ∀ hj : j < i, p (l.get ⟨j, Nat.lt_trans hj hi⟩) = false := by
  intro l
  induction l with
  | nil => intro a h; cases h
  | cons x t ih =>
    intro a h
    by_cases hx : p x = true
    · rw [List.find?_cons_of_pos _ hx] at h
      obtain rfl : x = a := by cases h; rfl
      exact ⟨0, by simp, rfl, fun j hj => absurd hj (Nat.not_lt_zero j)⟩
    · rw [List.find?_cons_of_neg _ hx] at h
      obtain ⟨i, hi, hget, hbefore⟩ := ih a h
      refine ⟨i + 1, by simpa using Nat.succ_lt_succ hi, hget, ?_⟩
      intro j hj
      cases j with
      | zero => simpa using Bool.eq_false_iff.mpr hx
      | succ j' => exact hbefore j' (Nat.lt_of_succ_lt_succ hj)

/-! ### Duplicate-detection structure lemmas -/

theorem mem_hashedCandidates {cands : List Candidate} {c : Candidate} :
    c ∈ hashedCandidates cands ↔
      c ∈ cands ∧ qualifiesForHash cands c = true := by
  rw [hashedCandidates]; exact List.mem_filter

/-- With pairwise-distinct candidate paths, equal paths force equal
candidates. -/
theorem eq_of_path_eq {cands : List Candidate}
    (hnd : (cands.map Candidate.path).Nodup) {c c' : Candidate}
    (hc : c ∈ cands) (hc' : c' ∈ cands) (h : c.path = c'.path) : c = c' :=
  List.inj_on_of_nodup_map hnd hc hc' h

/-- A candidate that does not qualify for hashing leaves no `hash_cache`
entry for its path. -/
theorem hashCache_eq_none {cands : List Candidate} {c : Candidate}
    (hnd : (cands.map Candidate.path).Nodup) (hc : c ∈ cands)
    (hq : qualifiesForHash cands c = false) :
    hashCache cands c.path = none := by
  rw [hashCache]
  cases hfind : (hashedCandidates cands).find? (fun c' => decide (c'.path = c.path)) with
  | none => rfl
  | some c' =>
    exfalso
    have hp : c'.path = c.path := by
      have := List.find?_some hfind
      exact of_decide_eq_true this
    have hm := List.mem_of_find?_eq_some hfind
    rw [mem_hashedCandidates] at hm
    have : c' = c := eq_of_path_eq hnd hm.1 hc hp
    rw [this] at hm
    rw [hm.2] at hq
    cases hq

/-- A candidate that does not qualify for hashing appears in no digest
group. -/
theorem not_mem_hashGroup {cands : List Candidate} {c : Candidate}
    (hnd : (cands.map Candidate.path).Nodup) (hc : c ∈ cands)
    (hq : qualifiesForHash cands c = false) :
    ∀ d : Digest, c.path ∉ hashGroup cands d := by
  intro d hmem
  rw [hashGroup] at hmem
  obtain ⟨c', hc', hpath⟩ := List.mem_map.mp hmem
  have hm := List.mem_of_mem_filter hc'
  rw [mem_hashedCandidates] at hm
  have : c' = c := eq_of_path_eq hnd hm.1 hc hpath
  rw [this] at hm
  rw [hm.2] at hq
  cases hq

/-- Any path appearing in a digest group belongs to a candidate that
qualified for hashing. -/
theorem mem_hashGroup_qualifies {cands : List Candidate} {p : FPath}
    {d : Digest} (h : p ∈ hashGroup cands d) :
    ∃ c' ∈ cands, c'.path = p ∧ c'.size ≠ 0 ∧
      2 ≤ (sizeGroup cands c'.size).length := by
  rw [hashGroup] at h
  obtain ⟨c', hc', hpath⟩ := List.mem_map.mp h
  have hm := List.mem_of_mem_filter hc'
  rw [mem_hashedCandidates] at hm
  have hq := hm.2
  rw [qualifiesForHash, Bool.and_eq_true, decide_eq_true_eq, decide_eq_true_eq] at hq
  exact ⟨c', hm.1, hpath, hq.1, hq.2⟩

/-- A pair of same-size, nonzero candidates makes both qualify for hashing. -/
theorem qualifies_of_pair {cands : List Candidate} {c c' : Candidate}
    (hc : c ∈ cands) (hc' : c' ∈ cands) (hne : c ≠ c')
    (hsz : c.size = c'.size) (hnz : c.size ≠ 0) :
    qualifiesForHash cands c = true := by
  rw [qualifiesForHash, Bool.and_eq_true, decide_eq_true_eq, decide_eq_true_eq]
  refine ⟨hnz, ?_⟩
  rw [sizeGroup, List.length_map]
  exact two_le_length_of_mem
    (List.mem_filter.mpr ⟨hc, by simp⟩)
    (List.mem_filter.mpr ⟨hc', by simp [hsz]⟩) hne

/-- A qualifying candidate's path is cached with its content digest
(given pairwise-distinct paths). -/
theorem hashCache_eq_some {cands : List Candidate} {c : Candidate}
    (hnd : (cands.map Candidate.path).Nodup) (hc : c ∈ cands)
    (hq : qualifiesForHash cands c = true) :
    hashCache cands c.path = some (digest c.content) := by
  rw [hashCache]
  have hmem : c ∈ hashedCandidates cands := mem_hashedCandidates.mpr ⟨hc, hq⟩
  have hsome : ((hashedCandidates cands).find? (fun c' => decide (c'.path = c.path))).isSome :=
    List.find?_isSome.mpr ⟨c, hmem, by simp⟩
  obtain ⟨c', hc'⟩ := Option.isSome_iff_exists.mp hsome
  rw [hc']
  have hp : c'.path = c.path := by
    have h := List.find?_some hc'
    simpa using h
  have hm := List.mem_of_find?_eq_some hc'
  have : c' = c :=
    eq_of_path_eq hnd (List.mem_of_mem_filter hm) hc hp
  rw [this]
  rfl

/-- A hashed candidate's path lies in the group of its own digest. -/
theorem mem_hashGroup_self {cands : List Candidate} {c : Candidate}
    (hc : c ∈ hashedCandidates cands) :
    c.path ∈ hashGroup cands (digest c.content) := by
  rw [hashGroup]
  exact List.mem_map_of_mem _ (List.mem_filter.mpr ⟨hc, by simp⟩)

/-! ### Confidence-score lemmas -/

/-- The 0.1 floor and 1.0 clamp put every confidence in `[0.1, 1]`. -/
theorem confClamp_bounds (q : ℚ) :
    0.1 ≤ min (max q 0.1) 1 ∧ min (max q 0.1) 1 ≤ 1 :=
  ⟨le_min (le_max_right q 0.1) (by norm_num), min_le_right _ _⟩

theorem calcConf_bounds (isExamMode : Bool) (cands : List Candidate)
    (path : FPath) (daysOld : Int) (size : Nat) (dth lmb : Nat)
    (category : FileCategory) (isDup : Bool) :
    0.1 ≤ (calculateConfidence isExamMode cands path daysOld size dth lmb
        category isDup).1 ∧
      (calculateConfidence isExamMode cands path daysOld size dth lmb
        category isDup).1 ≤ 1 := by
  rw [calculateConfidence]
  exact confClamp_bounds _

/-- Each max-combination step keeps a 0.99 score at 0.99 (no other signal
exceeds 0.95). -/
theorem scorePat_keep_top (filename : String) {s : ℚ × List Reason}
    (h : s.1 = 0.99) : (scorePat filename s).1 = 0.99 := by
  rw [scorePat]
  split
  · simp only [h]; norm_num
  · exact h

theorem scoreAge_keep_top (daysOld : Int) (dth : Nat) {s : ℚ × List Reason}
    (h : s.1 = 0.99) : (scoreAge daysOld dth s).1 = 0.99 := by
  rw [scoreAge]
  split
  · simp only [h]; norm_num
  · split
    · simp only [h]
      have hm := min_le_right ((((daysOld - (dth : Int)) : Int) : ℚ) / 30) (0.25 : ℚ)
      rw [max_eq_left (by linarith)]
    · exact h

theorem scoreSize_keep_top (size lmb : Nat) {s : ℚ × List Reason}
    (h : s.1 = 0.99) : (scoreSize size lmb s).1 = 0.99 := by
  rw [scoreSize]
  split
  · simp only [h]
    have hm := min_le_right ((size : ℚ) / (1024 * 1024) / 1000) (0.25 : ℚ)
    rw [max_eq_left (by linarith)]
  · exact h

theorem scoreStudy_keep_top (filename : String) {s : ℚ × List Reason}
    (h : s.1 = 0.99) : (scoreStudy filename s).1 = 0.99 := by
  rw [scoreStudy]
  split
  · simp only [h]; norm_num
  · exact h

/-- For a duplicate (nonempty duplicate group), the whole confidence
computation yields exactly 0.99, except that the exam-mode image cap lowers
it to 0.4. -/
theorem calcConf_duplicate (isExamMode : Bool) (cands : List Candidate)
    (path : FPath) (daysOld : Int) (size : Nat) (dth lmb : Nat)
    (hcount : 0 < duplicateCount cands path) :
    (calculateConfidence isExamMode cands path daysOld size dth lmb
        .Duplicate true).1 =
      if isExamMode && isImageExt path then 0.4 else 0.99 := by
  rw [calculateConfidence]
  have h1 : (scoreDup cands path true).1 = 0.99 := by
    rw [scoreDup]; simp [hcount]
  have h2 := scorePat_keep_top (fileName path) h1
  have h3 := scoreAge_keep_top daysOld dth h2
  have h4 := scoreSize_keep_top size lmb h3
  have h5 := scoreStudy_keep_top (fileName path) h4
  have h6 : (scoreCategory .Duplicate
      (scoreStudy (fileName path)
        (scoreSize size lmb
          (scoreAge daysOld dth
            (scorePat (fileName path) (scoreDup cands path true)))))).1 = 0.99 := by
    rw [scoreCategory]; exact h5
  rw [scoreExamCap]
  split
  · simp only [h6]; norm_num
  · simp only [h6]; norm_num

/-! ### Claim C5 -/

/-- C5: every `FileInfo` produced by a scan has confidence in the closed
interval [0.1, 1.0], for every candidate set, threshold setting and mode. -/
theorem C5_scan_confidence_in_range (cands : List Candidate)
    (isExamMode : Bool) (dth lmb : Nat) (lockOf : FPath → Bool) (r : FileInfo)
    (hr : r ∈ scanFiles cands isExamMode dth lmb lockOf) :
    0.1 ≤ r.confidence ∧ r.confidence ≤ 1 := by
  rw [scanFiles, List.mem_mergeSort, scanRecords, List.mem_filterMap] at hr
  obtain ⟨c, hc, hfc⟩ := hr
  simp only [] at hfc
  split at hfc
  · cases hfc
  · cases hfc
    simp only [mkFileInfo]
    exact calcConf_bounds _ _ _ _ _ _ _ _ _

theorem C5_scan_confidence_in_range_witness :
    0.1 ≤ (mkFileInfo [wOneCand] true 60 100 wNoLock wOneCand).confidence ∧
      (mkFileInfo [wOneCand] true 60 100 wNoLock wOneCand).confidence ≤ 1 :=
  C5_scan_confidence_in_range [wOneCand] true 60 100 wNoLock _ (by
    rw [scanFiles, List.mem_mergeSort, scanRecords, List.mem_filterMap]
    exact ⟨wOneCand, by simp, by simp⟩)

/-! ### Claim C7 -/

/-- C7: a candidate whose byte size is unique among all candidates is never
hashed and appears in no duplicate group; a zero-size candidate is likewise
never hashed; and every path in a digest group comes from a candidate with
nonzero size whose size group has at least two members. -/
theorem C7_hash_only_qualifying_sizes (cands : List Candidate) (c : Candidate)
    (hnd : (cands.map Candidate.path).Nodup) (hc : c ∈ cands) :
    ((sizeGroup cands c.size).length = 1 →
      hashCache cands c.path = none ∧ ∀ d, c.path ∉ hashGroup cands d) ∧
    (c.size = 0 →
      hashCache cands c.path = none ∧ ∀ d, c.path ∉ hashGroup cands d) ∧
    (∀ (p : FPath) (d : Digest), p ∈ hashGroup cands d →
      ∃ c' ∈ cands, c'.path = p ∧ c'.size ≠ 0 ∧
        2 ≤ (sizeGroup cands c'.size).length) := by
  refine ⟨?_, ?_, fun p d h => mem_hashGroup_qualifies h⟩
  · intro h1
    have hq : qualifiesForHash cands c = false := by
      rw [qualifiesForHash]; simp [h1]
    exact ⟨hashCache_eq_none hnd hc hq, not_mem_hashGroup hnd hc hq⟩
  · intro h0
    have hq : qualifiesForHash cands c = false := by
      rw [qualifiesForHash]; simp [h0]
    exact ⟨hashCache_eq_none hnd hc hq, not_mem_hashGroup hnd hc hq⟩

theorem C7_hash_only_qualifying_sizes_witness :
    (sizeGroup wSizeCands 5).length = 1 ∧
    hashCache wSizeCands ["u.pdf"] = none ∧
    hashCache wSizeCands ["empty.txt"] = none := by
  have hu := C7_hash_only_qualifying_sizes wSizeCands
    ⟨["u.pdf"], 5, [1, 2, 3, 4, 5], 0⟩ (by decide) (by decide)
  have hz := C7_hash_only_qualifying_sizes wSizeCands
    ⟨["empty.txt"], 0, [], 0⟩ (by decide) (by decide)
  exact ⟨by decide, (hu.1 (by decide)).1, (hz.2.1 rfl).1⟩

/-! ### Claim C1 -/

/-- C1 counterexample: two candidate files with identical (empty) byte
content are never hashed — their size is 0, so `detect_duplicates` skips the
group — hence they appear in no duplicate group, and each scores confidence
0.4, not ≥ 0.99. -/
theorem C1_counterexample :
    hashedCandidates cexEmptyCands = [] ∧
    hashGroup cexEmptyCands (digest []) = [] ∧
    isDuplicate cexEmptyCands ["a.txt"] = false ∧
    isDuplicate cexEmptyCands ["b.txt"] = false ∧
    (mkFileInfo cexEmptyCands false 60 100 wNoLock
      ⟨["a.txt"], 0, [], 0⟩).confidence = 0.4 ∧
    (mkFileInfo cexEmptyCands false 60 100 wNoLock
      ⟨["b.txt"], 0, [], 0⟩).confidence = 0.4 ∧
    ¬(0.99 ≤ (mkFileInfo cexEmptyCands false 60 100 wNoLock
      ⟨["a.txt"], 0, [], 0⟩).confidence) := by
  have hconfA : (mkFileInfo cexEmptyCands false 60 100 wNoLock
      ⟨["a.txt"], 0, [], 0⟩).confidence = 0.4 := by
    norm_num [mkFileInfo, calculateConfidence, scoreDup, scorePat, scoreAge,
      scoreSize, scoreStudy, scoreCategory, scoreExamCap,
      show isDuplicate cexEmptyCands ["a.txt"] = false from by decide,
      show categorizeFile ["a.txt"] 0 0 100 = .Other from by decide,
      show DUPLICATE_PATTERNS.any (fun pat => strHas (fileName ["a.txt"]) pat)
        = false from by decide,
      show STUDY_PATTERNS.any (fun pat => strHas (fileName ["a.txt"]) pat)
        = false from by decide]
  have hconfB : (mkFileInfo cexEmptyCands false 60 100 wNoLock
      ⟨["b.txt"], 0, [], 0⟩).confidence = 0.4 := by
    norm_num [mkFileInfo, calculateConfidence, scoreDup, scorePat, scoreAge,
      scoreSize, scoreStudy, scoreCategory, scoreExamCap,
      show isDuplicate cexEmptyCands ["b.txt"] = false from by decide,
      show categorizeFile ["b.txt"] 0 0 100 = .Other from by decide,
      show DUPLICATE_PATTERNS.any (fun pat => strHas (fileName ["b.txt"]) pat)
        = false from by decide,
      show STUDY_PATTERNS.any (fun pat => strHas (fileName ["b.txt"]) pat)
        = false from by decide]
  refine ⟨by decide, by decide, by decide, by decide, hconfA, hconfB, ?_⟩
  rw [hconfA]
  norm_num

/-- C1 (amended): two candidate files with identical *nonzero* byte content
(regardless of names) receive the same digest, land in the same duplicate
group of size ≥ 2, and each scores exactly 0.99 — except that in exam mode a
file with an image extension is capped to 0.4 by the screenshot rule. -/
theorem C1_identical_content_same_group (cands : List Candidate)
    (c1 c2 : Candidate) (isExamMode : Bool) (dth lmb : Nat)
    (lockOf : FPath → Bool)
    (hnd : (cands.map Candidate.path).Nodup)
    (h1 : c1 ∈ cands) (h2 : c2 ∈ cands) (hne : c1.path ≠ c2.path)
    (hcontent : c1.content = c2.content)
    (hsz1 : c1.size = c1.content.length) (hsz2 : c2.size = c2.content.length)
    (hnz : c1.content ≠ []) :
    hashCache cands c1.path = some (digest c1.content) ∧
    hashCache cands c2.path = some (digest c1.content) ∧
    c1.path ∈ hashGroup cands (digest c1.content) ∧
    c2.path ∈ hashGroup cands (digest c1.content) ∧
    2 ≤ (hashGroup cands (digest c1.content)).length ∧
    (mkFileInfo cands isExamMode dth lmb lockOf c1).confidence =
      (if isExamMode && isImageExt c1.path then (0.4 : ℚ) else 0.99) ∧
    (mkFileInfo cands isExamMode dth lmb lockOf c2).confidence =
      (if isExamMode && isImageExt c2.path then (0.4 : ℚ) else 0.99) := by
  have hcne : c1 ≠ c2 := fun h => hne (by rw [h])
  have hszeq : c1.size = c2.size := by rw [hsz1, hsz2, hcontent]
  have hnz1 : c1.size ≠ 0 := by
    intro h
    exact hnz (List.length_eq_zero.mp (by rw [← hsz1]; exact h))
  have hnz2 : c2.size ≠ 0 := hszeq ▸ hnz1
  have hq1 : qualifiesForHash cands c1 = true :=
    qualifies_of_pair h1 h2 hcne hszeq hnz1
  have hq2 : qualifiesForHash cands c2 = true :=
    qualifies_of_pair h2 h1 hcne.symm hszeq.symm hnz2
  have hm1 : c1 ∈ hashedCandidates cands := mem_hashedCandidates.mpr ⟨h1, hq1⟩
  have hm2 : c2 ∈ hashedCandidates cands := mem_hashedCandidates.mpr ⟨h2, hq2⟩
  have hg1 : c1.path ∈ hashGroup cands (digest c1.content) := mem_hashGroup_self hm1
  have hg2 : c2.path ∈ hashGroup cands (digest c1.content) := by
    rw [hcontent]; exact mem_hashGroup_self hm2
  have hlen : 2 ≤ (hashGroup cands (digest c1.content)).length :=
    two_le_length_of_mem hg1 hg2 hne
  have hcache1 : hashCache cands c1.path = some (digest c1.content) :=
    hashCache_eq_some hnd h1 hq1
  have hcache2 : hashCache cands c2.path = some (digest c1.content) := by
    rw [hcontent]; exact hashCache_eq_some hnd h2 hq2
  have hdup1 : isDuplicate cands c1.path = true := by
    rw [isDuplicate, hcache1]
    simpa using hlen
  have hdup2 : isDuplicate cands c2.path = true := by
    rw [isDuplicate, hcache2]
    simpa using hlen
  have hcount1 : 0 < duplicateCount cands c1.path := by
    rw [duplicateCount, hcache1]
    simp only [if_pos hlen]
    omega
  have hcount2 : 0 < duplicateCount cands c2.path := by
    rw [duplicateCount, hcache2]
    simp only [if_pos hlen]
    omega
  refine ⟨hcache1, hcache2, hg1, hg2, hlen, ?_, ?_⟩
  · simp only [mkFileInfo, hdup1, if_pos]
    exact calcConf_duplicate isExamMode cands c1.path c1.daysOld c1.size dth lmb hcount1
  · simp only [mkFileInfo, hdup2, if_pos]
    exact calcConf_duplicate isExamMode cands c2.path c2.daysOld c2.size dth lmb hcount2

theorem C1_identical_content_same_group_witness :
    hashCache wDupCands ["x", "notes.pdf"] = some (digest [1, 2, 3]) ∧
    hashCache wDupCands ["y", "misc.pdf"] = some (digest [1, 2, 3]) ∧
    2 ≤ (hashGroup wDupCands (digest [1, 2, 3])).length ∧
    (mkFileInfo wDupCands false 60 100 wNoLock
      ⟨["x", "notes.pdf"], 3, [1, 2, 3], 10⟩).confidence = 0.99 := by
  have h := C1_identical_content_same_group wDupCands
    ⟨["x", "notes.pdf"], 3, [1, 2, 3], 10⟩
    ⟨["y", "misc.pdf"], 3, [1, 2, 3], 5⟩ false 60 100 wNoLock
    (by decide) (by decide) (by decide) (by decide) rfl rfl rfl (by decide)
  exact ⟨h.1, h.2.1, h.2.2.2.2.1, by simpa using h.2.2.2.2.2.1⟩

/-! ### Claim C8 -/

/-- C8: in normal mode a candidate is in the ranked result iff its confidence
is at least 0.4; in exam mode every candidate's record is retained regardless
of score. -/
theorem C8_exam_mode_retention (cands : List Candidate) (dth lmb : Nat)
    (lockOf : FPath → Bool) (r : FileInfo) :
    (r ∈ scanFiles cands true dth lmb lockOf ↔
      ∃ c ∈ cands, r = mkFileInfo cands true dth lmb lockOf c) ∧
    (r ∈ scanFiles cands false dth lmb lockOf ↔
      (∃ c ∈ cands, r = mkFileInfo cands false dth lmb lockOf c) ∧
        0.4 ≤ r.confidence) := by
  constructor
  · rw [scanFiles, List.mem_mergeSort, scanRecords, List.mem_filterMap]
    constructor
    · rintro ⟨c, hc, hfc⟩
      simp only [Bool.not_true, Bool.false_and, Bool.false_eq_true,
        if_false] at hfc
      cases hfc
      exact ⟨c, hc, rfl⟩
    · rintro ⟨c, hc, rfl⟩
      refine ⟨c, hc, ?_⟩
      simp
  · rw [scanFiles, List.mem_mergeSort, scanRecords, List.mem_filterMap]
    constructor
    · rintro ⟨c, hc, hfc⟩
      simp only [Bool.not_false, Bool.true_and] at hfc
      split at hfc
      · cases hfc
      · cases hfc
        rename_i hcond
        refine ⟨⟨c, hc, rfl⟩, ?_⟩
        rw [decide_eq_true_eq] at hcond
        exact le_of_not_lt hcond
    · rintro ⟨⟨c, hc, rfl⟩, hconf⟩
      refine ⟨c, hc, ?_⟩
      simp only [Bool.not_false, Bool.true_and]
      rw [if_neg]
      rw [decide_eq_true_eq]
      exact not_lt_of_le hconf

/-! ### Claim C6 -/

theorem confGe_trans (a b c : FileInfo) (h1 : confGe a b) (h2 : confGe b c) :
    confGe a c := by
  rw [confGe, decide_eq_true_eq] at h1 h2 ⊢
  exact le_trans h2 h1

theorem confGe_total (a b : FileInfo) : confGe a b || confGe b a := by
  rw [confGe, confGe]
  rcases le_total b.confidence a.confidence with h | h <;> simp [h]

/-- C6: the scan's ranked list is sorted non-increasing by confidence, and
the sort is stable: the records at any fixed confidence value keep their
pre-sort traversal order. -/
theorem C6_sorted_descending_stable (cands : List Candidate)
    (isExamMode : Bool) (dth lmb : Nat) (lockOf : FPath → Bool) :
    (scanFiles cands isExamMode dth lmb lockOf).Pairwise
      (fun a b => b.confidence ≤ a.confidence) ∧
    ∀ q : ℚ,
      (scanFiles cands isExamMode dth lmb lockOf).filter
          (fun r => decide (r.confidence = q)) =
        (scanRecords cands isExamMode dth lmb lockOf).filter
          (fun r => decide (r.confidence = q)) := by
  constructor
  · rw [scanFiles]
    have h := List.sorted_mergeSort confGe_trans confGe_total
      (scanRecords cands isExamMode dth lmb lockOf)
    exact h.imp (fun hab => by rwa [confGe, decide_eq_true_eq] at hab)
  · intro q
    rw [scanFiles]
    have hpair :
        ((scanRecords cands isExamMode dth lmb lockOf).filter
          (fun r => decide (r.confidence = q))).Pairwise (fun a b => confGe a b) := by
      apply List.pairwise_of_forall_mem_list
      intro a ha b hb
      have ha' : a.confidence = q := by
        have := (List.mem_filter.mp ha).2
        rwa [decide_eq_true_eq] at this
      have hb' : b.confidence = q := by
        have := (List.mem_filter.mp hb).2
        rwa [decide_eq_true_eq] at this
      rw [confGe, decide_eq_true_eq, ha', hb']
    have hsub := List.sublist_mergeSort confGe_trans confGe_total hpair
      (List.filter_sublist (scanRecords cands isExamMode dth lmb lockOf))
    have h1 := hsub.filter (fun r => decide (r.confidence = q))
    rw [List.filter_filter] at h1
    simp only [Bool.and_self] at h1
    have hperm := (List.mergeSort_perm
      (scanRecords cands isExamMode dth lmb lockOf) confGe).filter
      (fun r => decide (r.confidence = q))
    exact (h1.eq_of_length hperm.length_eq.symm).symm

/-! ### Claim C4 -/

/-- C4 counterexample: with a shorter-prefix entry listed before a
longer-prefix entry, `is_protected` returns the shorter (first) match, not
the longest one. -/
theorem C4_counterexample :
    isProtected cexFolders ["a", "b", "c"] = some ⟨["a"], .Hard⟩ ∧
    (⟨["a", "b"], .Soft⟩ : ProtectedFolder) ∈ cexFolders ∧
    (["a", "b"] : FPath).isPrefixOf ["a", "b", "c"] = true ∧
    (["a"] : FPath).length < (["a", "b"] : FPath).length := by
  refine ⟨by decide, by decide, by decide, by decide⟩

/-- C4 (amended): `is_protected` returns `none` exactly when no entry's path
is a component-wise prefix of the query, and otherwise returns the *first*
matching entry in configuration order (first-match, not longest-prefix,
semantics). -/
theorem C4_first_match_semantics (folders : List ProtectedFolder) (p : FPath) :
    (isProtected folders p = none ↔
      ∀ e ∈ folders, e.path.isPrefixOf p = false) ∧
    ∀ e : ProtectedFolder, isProtected folders p = some e →
      e.path.isPrefixOf p = true ∧
      ∃ i, ∃ hi : i < folders.length, folders.get ⟨i, hi⟩ = e ∧
        ∀ j, ∀ hj : j < i,
          (folders.get ⟨j, Nat.lt_trans hj hi⟩).path.isPrefixOf p = false := by
  constructor
  · rw [isProtected, List.find?_eq_none]
    constructor
    · intro h e he
      have hne := h e he
      simpa only [Bool.not_eq_true] using hne
    · intro h e he
      simp [h e he]
  · intro e he
    rw [isProtected] at he
    have hp := List.find?_some he
    refine ⟨hp, ?_⟩
    obtain ⟨i, hi, hget, hbefore⟩ := find?_first_index _ folders e he
    exact ⟨i, hi, hget, hbefore⟩

theorem C4_first_match_semantics_witness :
    (["a"] : FPath).isPrefixOf ["a", "x"] = true ∧
    isProtected cexFolders ["q"] = none := by
  constructor
  · exact ((C4_first_match_semantics cexFolders ["a", "x"]).2
      ⟨["a"], .Hard⟩ (by decide)).1
  · exact (C4_first_match_semantics cexFolders ["q"]).1.mpr (by decide)

/-! ### Claim C9 -/

mutual
/-- When every directory in the subtree is readable, `dir_size` succeeds with
the recursive file-length sum (unreadable file metadata counting as 0). -/
theorem dirSize_ok : ∀ t : FsNode, allDirsReadable t = true →
    dirSize t = .ok (goodSize t)
  | .file sz m, _ => by simp [dirSize, goodSize]
  | .dir r cs, h => by
    have hr : r = true ∧ allDirsReadableChildren cs = true := by
      simpa [allDirsReadable, Bool.and_eq_true] using h
    rw [dirSize, goodSize, if_pos hr.1]
    exact dirSizeChildren_ok cs hr.2

theorem dirSizeChildren_ok : ∀ l : List FsNode,
    allDirsReadableChildren l = true →
    dirSizeChildren l = .ok (goodSizeChildren l)
  | [], _ => by simp [dirSizeChildren, goodSizeChildren]
  | c :: rest, h => by
    have hcr : allDirsReadable c = true ∧ allDirsReadableChildren rest = true := by
      simpa [allDirsReadableChildren, Bool.and_eq_true] using h
    cases c with
    | file sz m =>
      rw [dirSizeChildren, goodSizeChildren]
      rw [dirSizeChildren_ok rest hcr.2]
      rfl
    | dir r cs =>
      rw [dirSizeChildren, goodSizeChildren]
      rw [dirSize_ok (.dir r cs) hcr.1, dirSizeChildren_ok rest hcr.2]
      rfl
end

mutual
/-- When some directory in the subtree is unreadable, `dir_size` fails
outright instead of counting the unreadable entry as zero. -/
theorem dirSize_err : ∀ t : FsNode, allDirsReadable t = false →
    dirSize t = .error "permission denied"
  | .file sz m, h => by simp [allDirsReadable] at h
  | .dir r cs, h => by
    rw [allDirsReadable, Bool.and_eq_false_iff] at h
    rcases h with h | h
    · rw [dirSize, if_neg (by simp [h])]
    · cases hr : r with
      | false => rw [dirSize, if_neg (by simp)]
      | true =>
        rw [dirSize, if_pos rfl]
        exact dirSizeChildren_err cs h

theorem dirSizeChildren_err : ∀ l : List FsNode,
    allDirsReadableChildren l = false →
    dirSizeChildren l = .error "permission denied"
  | [], h => by simp [allDirsReadableChildren] at h
  | c :: rest, h => by
    rw [allDirsReadableChildren, Bool.and_eq_false_iff] at h
    rcases h with h | h
    · cases c with
      | file sz m => simp [allDirsReadable] at h
      | dir r cs =>
        rw [dirSizeChildren]
        rw [dirSize_err (.dir r cs) h]
        rfl
    · cases hc : allDirsReadable c with
      | false =>
        cases c with
        | file sz m => simp [allDirsReadable] at hc
        | dir r cs =>
          rw [dirSizeChildren]
          rw [dirSize_err (.dir r cs) hc]
          rfl
      | true =>
        cases c with
        | file sz m =>
          rw [dirSizeChildren]
          rw [dirSizeChildren_err rest h]
          rfl
        | dir r cs =>
          rw [dirSizeChildren]
          rw [dirSize_ok (.dir r cs) hc, dirSizeChildren_err rest h]
          rfl
end

/-- C9 (amended): `dir_size` returns the recursive sum of contained file
lengths with unreadable *file metadata* contributing zero, but an unreadable
*directory* makes the whole computation fail with an error instead of
contributing zero. -/
theorem C9_dir_size_behaviour (t : FsNode) :
    (allDirsReadable t = true → dirSize t = .ok (goodSize t)) ∧
    (allDirsReadable t = false → dirSize t = .error "permission denied") :=
  ⟨dirSize_ok t, dirSize_err t⟩

/-- C9 counterexample: a readable directory holding one unreadable
subdirectory makes `dir_size` fail; the claim demands it succeed treating the
unreadable entry as zero. -/
theorem C9_counterexample :
    dirSize (FsNode.dir true [FsNode.dir false []]) = .error "permission denied" ∧
    dirSize (FsNode.dir true [FsNode.dir false []]) ≠
      .ok (goodSize (FsNode.dir true [FsNode.dir false []])) := by
  constructor
  · rfl
  · intro h
    rw [show dirSize (FsNode.dir true [FsNode.dir false []]) =
      .error "permission denied" from rfl] at h
    cases h

theorem C9_dir_size_behaviour_witness :
    dirSize (FsNode.dir true [FsNode.file 5 true, FsNode.file 7 false,
        FsNode.dir true [FsNode.file 3 true]]) = .ok 8 ∧
    dirSize (FsNode.dir true [FsNode.file 5 true, FsNode.dir false []]) =
      .error "permission denied" := by
  constructor
  · have h := (C9_dir_size_behaviour (FsNode.dir true [FsNode.file 5 true,
      FsNode.file 7 false, FsNode.dir true [FsNode.file 3 true]])).1 (by rfl)
    rw [h]
    rfl
  · exact (C9_dir_size_behaviour (FsNode.dir true [FsNode.file 5 true,
      FsNode.dir false []])).2 (by rfl)

/-! ### Claim C3 -/

/-- C3 (code behaviour at the failing input): a snapshot 45 days old is
reported and "keep forever" writes the marker, but a later check reports the
marked snapshot again — `check_archive_reminders` never reads
`.keep_forever`. -/
theorem C3_keep_forever_not_consulted :
    (checkArchiveReminders 45 (fun _ => .keep)
      [⟨"2026-08-28", 0, false, none⟩]).1 = ["2026-08-28"] ∧
    (checkArchiveReminders 45 (fun _ => .keep)
      [⟨"2026-08-28", 0, false, none⟩]).2 =
        [⟨"2026-08-28", 0, true, none⟩] ∧
    (checkArchiveReminders 52 (fun _ => .keep)
      [⟨"2026-08-28", 0, true, none⟩]).1 = ["2026-08-28"] := by
  refine ⟨?_, ?_, ?_⟩ <;>
    simp [checkArchiveReminders, listArchives, checkRemindersGo]

/-! ### Claim C2 -/

set_option maxRecDepth 4000 in
/-- C2 (code behaviour at the failing input): with `report.docx` and
`report_1.docx` … `report_100.docx` already present in the day's `general`
course folder, archiving another `report.docx` appends the "Too many filename
conflicts" failure (twice, once per extra loop pass) yet the `continue`
restarts only the collision `while` loop, so the file is still renamed — to
`report_101.docx` — and also recorded as successful. -/
theorem C2_conflict_cap_not_enforced :
    cleanToArchive ⟨fun _ => .skip, fun _ => .skip, fun _ => false⟩ []
      [⟨["downloads", "report.docx"], true, false, false, true, true, 5⟩]
      (["general", "report.docx"] ::
        (List.range 100).map
          (fun k => ["general", "report_" ++ toString (k + 1) ++ ".docx"])) =
      ([], .ok
        ({ filesProcessed := 1, totalSizeBytes := 5,
           successfulFiles := [["downloads", "report.docx"]],
           failedFiles :=
             [(["downloads", "report.docx"], "Too many filename conflicts"),
              (["downloads", "report.docx"], "Too many filename conflicts")] },
         [(["downloads", "report.docx"], ["general", "report_101.docx"])])) := by
  rfl

/-! ### Claim C10 -/

/-- The prompt list of one archive-mode file step is empty or the single
locked-file prompt: `archiveStep` consults neither the protection oracle nor
the cloud-folder check. -/
theorem archiveStep_calls (oracle : DecisionOracle) (archiveDir : FPath)
    (f : ArchFile) (fs : List FPath) :
    (archiveStep oracle archiveDir f fs).1 = [] ∨
      (archiveStep oracle archiveDir f fs).1 = [OracleCall.lockedPrompt f.path] := by
  rw [archiveStep]
  by_cases hp : f.present
  · by_cases hl : f.locked
    · right; simp [hp, hl, handleLockedFile]
    · left; simp [hp, hl]
  · left; simp [hp]

/-- Batch version: every oracle prompt emitted by the archive-mode loop is a
locked-file prompt. -/
theorem cleanToArchiveGo_trace (oracle : DecisionOracle) (archiveDir : FPath) :
    ∀ (files : List ArchFile) (res : CleanupResult)
      (manifest : List (FPath × FPath)) (fs : List FPath),
      ∀ call ∈ (cleanToArchiveGo oracle archiveDir files res manifest fs).1,
        ∃ p, call = OracleCall.lockedPrompt p := by
  intro files
  induction files with
  | nil =>
    intro res manifest fs call hcall
    simp [cleanToArchiveGo] at hcall
  | cons f rest ih =>
    intro res manifest fs call hcall
    rw [cleanToArchiveGo] at hcall
    rcases hstep : archiveStep oracle archiveDir f fs with ⟨calls, outcome⟩
    have hcalls : calls = [] ∨ calls = [OracleCall.lockedPrompt f.path] := by
      have h := archiveStep_calls oracle archiveDir f fs
      rw [hstep] at h
      exact h
    rw [hstep] at hcall
    have hmem : call ∈ calls ∨
        ∃ res' manifest' fs',
          call ∈ (cleanToArchiveGo oracle archiveDir rest res' manifest' fs').1 := by
      cases outcome with
      | cancelAll e => exact Or.inl (by simpa using hcall)
      | skip =>
        rcases List.mem_append.mp (by simpa using hcall) with h | h
        · exact Or.inl h
        · exact Or.inr ⟨_, _, _, h⟩
      | fail errs =>
        rcases List.mem_append.mp (by simpa using hcall) with h | h
        · exact Or.inl h
        · exact Or.inr ⟨_, _, _, h⟩
      | moved dest errs =>
        rcases List.mem_append.mp (by simpa using hcall) with h | h
        · exact Or.inl h
        · exact Or.inr ⟨_, _, _, h⟩
    rcases hmem with h | ⟨res', manifest', fs', h⟩
    · rcases hcalls with rfl | rfl
      · cases h
      · rw [List.mem_singleton.mp h]
        exact ⟨f.path, rfl⟩
    · exact ih res' manifest' fs' call h

/-- C10: in archive mode there is no protection-oracle or cloud-folder check:
every emitted prompt is a locked-file prompt, and a present, unlocked file —
even one under a Hard- or Soft-protected folder or inside a cloud-sync
folder — is moved into the archive with no oracle call at all. -/
theorem C10_archive_mode_no_protection_or_cloud_checks :
    (∀ (oracle : DecisionOracle) (archiveDir : FPath) (files : List ArchFile)
        (fs : List FPath),
      ∀ call ∈ (cleanToArchive oracle archiveDir files fs).1,
        ∃ p, call = OracleCall.lockedPrompt p) ∧
    (∀ (oracle : DecisionOracle) (archiveDir : FPath) (fs : List FPath)
        (folders : List ProtectedFolder) (f : ArchFile) (pf : ProtectedFolder),
      isProtected folders f.path = some pf ∨ isInCloudFolder f.path = true →
      f.present = true → f.locked = false → f.metaOk = true → f.moveOk = true →
      ¬(archiveDir ++ [detectCourseArchive f.path] ++ [fileName f.path] ∈ fs) →
      cleanToArchive oracle archiveDir [f] fs =
        ([], .ok (⟨1, f.size, [f.path], []⟩,
          [(f.path,
            archiveDir ++ [detectCourseArchive f.path] ++ [fileName f.path])]))) := by
  constructor
  · intro oracle archiveDir files fs
    rw [cleanToArchive]
    exact cleanToArchiveGo_trace oracle archiveDir files _ _ _
  · intro oracle archiveDir fs folders f pf hprot hpres hlock hmeta hmove hnc
    have hstep : archiveStep oracle archiveDir f fs =
        ([], .moved
          (archiveDir ++ [detectCourseArchive f.path] ++ [fileName f.path]) []) := by
      have hnc' : archiveDir ++ [detectCourseArchive f.path, fileName f.path] ∉ fs := by
        simpa using hnc
      rw [archiveStep]
      simp only [hpres, hlock, Bool.not_true, Bool.false_eq_true, if_false]
      rw [archiveStepOutcome]
      rw [show fs.length + 2 = (fs.length + 1) + 1 from rfl]
      simp [resolveLoop, hnc', hmeta, hmove]
    rw [cleanToArchive, cleanToArchiveGo, hstep]
    simp [cleanToArchiveGo, CleanupResult.empty]

theorem C10_archive_mode_no_protection_or_cloud_checks_witness :
    cleanToArchive ⟨fun _ => .retry, fun _ => .cancel, fun _ => true⟩ ["arc"]
      [⟨["home", "Dropbox", "a.pdf"], true, false, false, true, true, 3⟩] [] =
      ([], .ok (⟨1, 3, [["home", "Dropbox", "a.pdf"]], []⟩,
        [(["home", "Dropbox", "a.pdf"], ["arc", "general", "a.pdf"])])) ∧
    isProtected [⟨["home", "Dropbox"], .Hard⟩] ["home", "Dropbox", "a.pdf"] =
      some ⟨["home", "Dropbox"], .Hard⟩ ∧
    isInCloudFolder ["home", "Dropbox", "a.pdf"] = true := by
  refine ⟨?_, by decide, by decide⟩
  exact C10_archive_mode_no_protection_or_cloud_checks.2
    ⟨fun _ => .retry, fun _ => .cancel, fun _ => true⟩ ["arc"] []
    [⟨["home", "Dropbox"], .Hard⟩]
    ⟨["home", "Dropbox", "a.pdf"], true, false, false, true, true, 3⟩
    ⟨["home", "Dropbox"], .Hard⟩ (Or.inl (by decide)) rfl rfl rfl rfl
    (by simp)
